import Mathlib

/-!
Shallow embedding of the PACK2 volume-coverage core.

The embedded code comes from:
* the fill range service (`FillRangeService`): `calculateFillRange`,
  `calculateSeriesFillRanges`, `getTotalCoverage`;
* the comparison service (`ComparisonService`): `findIntraSeriesGaps`,
  `findGaps`, `findIntraSeriesOverlaps`, `findOverlaps`, `assessGapSeverity`,
  `analyzeSeriesInternal`, `calculateCoverage`, `calculateSeriesCoverage`,
  `compareSeries`;
* the bottle generation service (`BottleGenerationService`):
  `linearProgression`, `goldenRatioProgression`, `logarithmicProgression`,
  `calculateVolumes`.

JavaScript numbers are modelled as elements of a linear ordered field `α`
(instantiated at `ℝ` for the program semantics; concrete evaluations are
carried out at `ℚ`, where every operation involved is exact, so the two
instantiations agree on rational inputs).  `Math.round` is modelled by
Mathlib's `round` (both are `fun x => ⌊x + 1/2⌋`), `Math.pow`/`Math.log`/
`Math.exp` by `Real.rpow`/`Real.log`/`Real.exp`; the progression functions
are therefore defined at `ℝ` only.  `Array.prototype.sort` with comparator
`(a, b) => a.minFill - b.minFill` is a stable sort by `minFill`, modelled by
`List.insertionSort` (stable) with the relation `a.minFill ≤ b.minFill`.

Fields of the source records that the analysed core treats as opaque
pass-through data (colors, material, cap style, label zones, timestamps,
freshly minted uuids, and the generated recommendation strings, which are
only number-to-text formatting) are omitted from the embedding.
-/

namespace Pack2

/-- Severity tag of a coverage gap (`CoverageGap['severity']`). -/
inductive Severity : Type where
  | minor : Severity
  | moderate : Severity
  | major : Severity
deriving DecidableEq, Repr

/-- Thresholds record (`GAP_SEVERITY_THRESHOLDS` shape). -/
structure GapSeverityThresholds (α : Type) : Type where
  minor : α
  moderate : α
deriving Repr

/-- Source constant `GAP_SEVERITY_THRESHOLDS = { minor: 20, moderate: 50 }`. -/
def GAP_SEVERITY_THRESHOLDS {α : Type} [LinearOrderedField α] :
    GapSeverityThresholds α := ⟨20, 50⟩

/-- The `FillRange` record of the source. -/
structure FillRange (α : Type) : Type where
  bottleId : String
  bottleVolume : α
  minFill : α
  targetFill : α
  maxFill : α
  minPercent : α
  targetPercent : α
  maxPercent : α
deriving DecidableEq, Repr

/-- The part of the source `Bottle` record the coverage core reads:
its id and its derived volume (mL).  All other fields (dimensions,
colors, material, …) are opaque to the fill-range/comparison code. -/
structure Bottle (α : Type) : Type where
  id : String
  volume : α
deriving DecidableEq, Repr

/-- Generation algorithm tag (`GenerationAlgorithm`). -/
inductive GenerationAlgorithm : Type where
  | linear : GenerationAlgorithm
  | goldenRatio : GenerationAlgorithm
  | logarithmic : GenerationAlgorithm
deriving DecidableEq, Repr

/-- The `GenerationConfig` record of the source. -/
structure GenerationConfig (α : Type) : Type where
  algorithm : GenerationAlgorithm
  minVolume : α
  maxVolume : α
  bottleCount : ℕ
  baseTemplateId : String
  fillRangeMin : α
  fillRangeMax : α
deriving Repr

/-- The `BottleSeries` record of the source (metadata fields omitted). -/
structure BottleSeries (α : Type) : Type where
  id : String
  name : String
  config : GenerationConfig α
  bottles : List (Bottle α)

/-- The `CoverageGap` record of the source. -/
structure CoverageGap (α : Type) : Type where
  startVolume : α
  endVolume : α
  gapSize : α
  severity : Severity
deriving DecidableEq, Repr

/-- The `IntraSeriesOverlap` record of the source. -/
structure IntraSeriesOverlap (α : Type) : Type where
  startVolume : α
  endVolume : α
  overlapSize : α
  bottle1Id : String
  bottle2Id : String
deriving DecidableEq, Repr

/-- The `CoverageOverlap` record of the source. -/
structure CoverageOverlap (α : Type) : Type where
  startVolume : α
  endVolume : α
  overlapSize : α
  series1Bottles : List String
  series2Bottles : List String
deriving DecidableEq, Repr

/-- The `IntraSeriesAnalysis` record of the source. -/
structure IntraSeriesAnalysis (α : Type) : Type where
  seriesId : String
  seriesName : String
  gaps : List (CoverageGap α)
  totalGapSize : α
  overlaps : List (IntraSeriesOverlap α)
  totalOverlapSize : α
  coverageSpan : α
  coveredRange : α
  coverageEfficiency : α
  spaceUtilization : α

/-- Result of `ComparisonService.calculateCoverage`. -/
structure Coverage (α : Type) : Type where
  series1 : α
  series2 : α
  combined : α
deriving DecidableEq, Repr

/-- The `SeriesComparison` record of the source (uuid, display name, notes
and timestamp omitted; the recommendation strings are omitted as pure
text formatting). -/
structure SeriesComparison (α : Type) : Type where
  series1Id : String
  series2Id : String
  series1Analysis : IntraSeriesAnalysis α
  series2Analysis : IntraSeriesAnalysis α
  gaps : List (CoverageGap α)
  overlaps : List (CoverageOverlap α)
  series1Coverage : α
  series2Coverage : α
  combinedCoverage : α

variable {α : Type} [LinearOrderedField α]

/-- `FillRangeService.calculateFillRange(bottle, minPercent = 65, maxPercent = 85)`. -/
def calculateFillRange (bottle : Bottle α) (minPercent : α := 65)
    (maxPercent : α := 85) : FillRange α :=
  let targetPercent := (minPercent + maxPercent) / 2
  { bottleId := bottle.id
    bottleVolume := bottle.volume
    minFill := bottle.volume * minPercent / 100
    targetFill := bottle.volume * targetPercent / 100
    maxFill := bottle.volume * maxPercent / 100
    minPercent := minPercent
    targetPercent := targetPercent
    maxPercent := maxPercent }

/-- `FillRangeService.calculateSeriesFillRanges(series)`. -/
def calculateSeriesFillRanges (series : BottleSeries α) : List (FillRange α) :=
  series.bottles.map fun bottle =>
    calculateFillRange bottle series.config.fillRangeMin series.config.fillRangeMax

/-- Ordering relation used by `sort((a, b) => a.minFill - b.minFill)`. -/
def fillLE (a b : FillRange α) : Prop := a.minFill ≤ b.minFill

instance : DecidableRel (@fillLE α _) :=
  fun a b => inferInstanceAs (Decidable (a.minFill ≤ b.minFill))

instance : IsTotal (FillRange α) (@fillLE α _) := ⟨fun a b => le_total a.minFill b.minFill⟩

instance : IsTrans (FillRange α) (@fillLE α _) := ⟨fun _ _ _ h h' => le_trans h h'⟩

/-- The stable sort `[...ranges].sort((a, b) => a.minFill - b.minFill)`. -/
def sortByMinFill (ranges : List (FillRange α)) : List (FillRange α) :=
  List.insertionSort (@fillLE α _) ranges

/-- Loop body of `FillRangeService.getTotalCoverage` (and of the verbatim
copy `ComparisonService.calculateSeriesCoverage`): the state `currentMax`
is threaded through the sorted list, accumulating the part of each range
that lies above the running maximum. -/
def coverageSweep : α → List (FillRange α) → α
  | _, [] => 0
  | currentMax, r :: rest =>
    let effectiveMin := max r.minFill currentMax
    if effectiveMin < r.maxFill then
      (r.maxFill - effectiveMin) + coverageSweep (max currentMax r.maxFill) rest
    else
      coverageSweep currentMax rest

/-- `FillRangeService.getTotalCoverage(ranges)`. -/
def getTotalCoverage (ranges : List (FillRange α)) : α :=
  match sortByMinFill ranges with
  | [] => 0
  | first :: rest => coverageSweep first.minFill (first :: rest)

/-- `ComparisonService.calculateSeriesCoverage(ranges)` — a verbatim copy of
`getTotalCoverage` inside the comparison service. -/
def calculateSeriesCoverage (ranges : List (FillRange α)) : α :=
  match sortByMinFill ranges with
  | [] => 0
  | first :: rest => coverageSweep first.minFill (first :: rest)

/-- `ComparisonService.assessGapSeverity(gapSize)`. -/
def assessGapSeverity (gapSize : α) : Severity :=
  if gapSize ≤ (GAP_SEVERITY_THRESHOLDS : GapSeverityThresholds α).minor then .minor
  else if gapSize ≤ (GAP_SEVERITY_THRESHOLDS : GapSeverityThresholds α).moderate then .moderate
  else .major

/-- Loop body shared by `findIntraSeriesGaps` and `findGaps`: walk the
sorted ranges tracking the running maximum `maxFill`; whenever the next
range's `minFill` exceeds the running maximum, emit a gap. -/
def gapSweep : α → List (FillRange α) → List (CoverageGap α)
  | _, [] => []
  | runningMax, r :: rest =>
    if runningMax < r.minFill then
      { startVolume := runningMax
        endVolume := r.minFill
        gapSize := r.minFill - runningMax
        severity := assessGapSeverity (r.minFill - runningMax) } ::
        gapSweep (max runningMax r.maxFill) rest
    else
      gapSweep (max runningMax r.maxFill) rest

/-- `ComparisonService.findIntraSeriesGaps(ranges)`. -/
def findIntraSeriesGaps (ranges : List (FillRange α)) : List (CoverageGap α) :=
  if ranges.length ≤ 1 then []
  else
    match sortByMinFill ranges with
    | [] => []
    | first :: rest => gapSweep first.maxFill rest

/-- `ComparisonService.findGaps(ranges1, ranges2)`: pool both series'
ranges, sort by `minFill`, sweep. -/
def findGaps (ranges1 ranges2 : List (FillRange α)) : List (CoverageGap α) :=
  match sortByMinFill (ranges1 ++ ranges2) with
  | [] => []
  | first :: rest => gapSweep first.maxFill rest

/-- Inner loop of `findOverlaps`: intersect one range of series 1 with
every range of series 2, in order. -/
def overlapsWith (range1 : FillRange α) : List (FillRange α) → List (CoverageOverlap α)
  | [] => []
  | range2 :: rest =>
    (if max range1.minFill range2.minFill < min range1.maxFill range2.maxFill then
      [{ startVolume := max range1.minFill range2.minFill
         endVolume := min range1.maxFill range2.maxFill
         overlapSize := min range1.maxFill range2.maxFill - max range1.minFill range2.minFill
         series1Bottles := [range1.bottleId]
         series2Bottles := [range2.bottleId] }]
    else []) ++ overlapsWith range1 rest

/-- `ComparisonService.findOverlaps(ranges1, ranges2)`. -/
def findOverlaps : List (FillRange α) → List (FillRange α) → List (CoverageOverlap α)
  | [], _ => []
  | range1 :: rest, ranges2 => overlapsWith range1 ranges2 ++ findOverlaps rest ranges2

/-- Inner loop of `findIntraSeriesOverlaps`: intersect `ranges[i]` with
each later range `ranges[j]`, `j > i`. -/
def intraOverlapsWith (a : FillRange α) : List (FillRange α) → List (IntraSeriesOverlap α)
  | [] => []
  | b :: rest =>
    (if max a.minFill b.minFill < min a.maxFill b.maxFill then
      [{ startVolume := max a.minFill b.minFill
         endVolume := min a.maxFill b.maxFill
         overlapSize := min a.maxFill b.maxFill - max a.minFill b.minFill
         bottle1Id := a.bottleId
         bottle2Id := b.bottleId }]
    else []) ++ intraOverlapsWith a rest

/-- Pair loop of `findIntraSeriesOverlaps` over all `i < j`. -/
def intraOverlapPairs : List (FillRange α) → List (IntraSeriesOverlap α)
  | [] => []
  | a :: rest => intraOverlapsWith a rest ++ intraOverlapPairs rest

/-- `ComparisonService.findIntraSeriesOverlaps(ranges)`. -/
def findIntraSeriesOverlaps (ranges : List (FillRange α)) : List (IntraSeriesOverlap α) :=
  if ranges.length ≤ 1 then [] else intraOverlapPairs ranges

/-- `Math.min(...l)` for a nonempty list (callers guard emptiness; the
value on `[]` is an unused junk value). -/
def listMin : List α → α
  | [] => 0
  | x :: xs => xs.foldl min x

/-- `Math.max(...l)` for a nonempty list (callers guard emptiness). -/
def listMax : List α → α
  | [] => 0
  | x :: xs => xs.foldl max x

/-- `ComparisonService.analyzeSeriesInternal(series, ranges?)`. -/
def analyzeSeriesInternal (series : BottleSeries α)
    (ranges : Option (List (FillRange α)) := none) : IntraSeriesAnalysis α :=
  let fillRanges := ranges.getD (calculateSeriesFillRanges series)
  if fillRanges.isEmpty then
    { seriesId := series.id, seriesName := series.name
      gaps := [], totalGapSize := 0, overlaps := [], totalOverlapSize := 0
      coverageSpan := 0, coveredRange := 0
      coverageEfficiency := 100, spaceUtilization := 100 }
  else
    let gaps := findIntraSeriesGaps fillRanges
    let totalGapSize := (gaps.map CoverageGap.gapSize).sum
    let overlaps := findIntraSeriesOverlaps fillRanges
    let totalOverlapSize := (overlaps.map IntraSeriesOverlap.overlapSize).sum
    let minFill := listMin (fillRanges.map FillRange.minFill)
    let maxFill := listMax (fillRanges.map FillRange.maxFill)
    let coverageSpan := maxFill - minFill
    let coveredRange := getTotalCoverage fillRanges
    let coverageEfficiency :=
      if 0 < coverageSpan then coveredRange / coverageSpan * 100 else 100
    let minVolume := listMin (fillRanges.map FillRange.bottleVolume)
    let maxVolume := listMax (fillRanges.map FillRange.bottleVolume)
    let volumeRange := maxVolume - minVolume
    let spaceUtilization :=
      if 0 < volumeRange then min 100 (coveredRange / volumeRange * 100) else 100
    { seriesId := series.id, seriesName := series.name
      gaps := gaps, totalGapSize := totalGapSize
      overlaps := overlaps, totalOverlapSize := totalOverlapSize
      coverageSpan := coverageSpan, coveredRange := coveredRange
      coverageEfficiency := coverageEfficiency, spaceUtilization := spaceUtilization }

/-- `ComparisonService.calculateCoverage(ranges1, ranges2, gaps)`. -/
def calculateCoverage (ranges1 ranges2 : List (FillRange α))
    (gaps : List (CoverageGap α)) : Coverage α :=
  let allRanges := ranges1 ++ ranges2
  if allRanges.isEmpty then ⟨0, 0, 0⟩
  else
    let minVolume := listMin (allRanges.map FillRange.minFill)
    let maxVolume := listMax (allRanges.map FillRange.maxFill)
    let totalRange := maxVolume - minVolume
    if totalRange ≤ 0 then ⟨100, 100, 100⟩
    else
      let series1Coverage := calculateSeriesCoverage ranges1
      let series2Coverage := calculateSeriesCoverage ranges2
      let totalGapSize := (gaps.map CoverageGap.gapSize).sum
      let combinedCoverage := (totalRange - totalGapSize) / totalRange * 100
      ⟨series1Coverage / totalRange * 100,
       series2Coverage / totalRange * 100,
       min 100 (max 0 combinedCoverage)⟩

/-- Union of the closed intervals `[minFill, maxFill]` of a list of fill
ranges, as a set of reals (recursive form of `⋃ r ∈ l, Icc r.minFill r.maxFill`). -/
def unionIcc : List (FillRange ℝ) → Set ℝ
  | [] => ∅
  | r :: rest => Set.Icc r.minFill r.maxFill ∪ unionIcc rest

/-- `ComparisonService.compareSeries(series1, series2)` (uuid, display
name, notes, timestamp and recommendation strings omitted). -/
def compareSeries (series1 series2 : BottleSeries α) : SeriesComparison α :=
  let ranges1 := calculateSeriesFillRanges series1
  let ranges2 := calculateSeriesFillRanges series2
  let series1Analysis := analyzeSeriesInternal series1 (some ranges1)
  let series2Analysis := analyzeSeriesInternal series2 (some ranges2)
  let gaps := findGaps ranges1 ranges2
  let overlaps := findOverlaps ranges1 ranges2
  let coverage := calculateCoverage ranges1 ranges2 gaps
  { series1Id := series1.id
    series2Id := series2.id
    series1Analysis := series1Analysis
    series2Analysis := series2Analysis
    gaps := gaps
    overlaps := overlaps
    series1Coverage := coverage.series1
    series2Coverage := coverage.series2
    combinedCoverage := coverage.combined }

/-- Source constant `PHI = 1.618033988749895`. -/
def PHI : ℝ := 1.618033988749895

/-- `BottleGenerationService.linearProgression(minVolume, maxVolume, count)`:
`V(i) = round(min + (max - min) * i / (n - 1))`; `count ≤ 1` returns `[min]`. -/
noncomputable def linearProgression (minVolume maxVolume : ℝ) (count : ℕ) : List ℝ :=
  if count ≤ 1 then [minVolume]
  else
    let step := (maxVolume - minVolume) / ((count : ℝ) - 1)
    (List.range count).map fun i => ((round (minVolume + step * (i : ℝ)) : ℤ) : ℝ)

/-- The ratio chosen by `goldenRatioProgression`: the `count - 1`-th root of
`max / min` if that exceeds `PHI`, otherwise `PHI` itself. -/
noncomputable def goldenRatioRatio (minVolume maxVolume : ℝ) (count : ℕ) : ℝ :=
  let neededRatio := (maxVolume / minVolume) ^ ((1 : ℝ) / ((count : ℝ) - 1))
  if neededRatio ≤ PHI then PHI else neededRatio

/-- Loop of `goldenRatioProgression`: at iteration `i` push
`round(current)`, multiply `current` by the ratio, and overwrite `current`
with `maxVolume` when `i = count - 2` (so the overwrite takes effect on the
element pushed at index `count - 1`).  `remaining` counts the iterations
still to run (`count - i`). -/
noncomputable def grpLoop (ratio maxVolume : ℝ) (count : ℕ) :
    ℕ → ℕ → ℝ → List ℝ
  | 0, _, _ => []
  | remaining + 1, i, current =>
    ((round current : ℤ) : ℝ) ::
      grpLoop ratio maxVolume count remaining (i + 1)
        (if i = count - 2 then maxVolume else current * ratio)

/-- `BottleGenerationService.goldenRatioProgression(minVolume, maxVolume, count)`. -/
noncomputable def goldenRatioProgression (minVolume maxVolume : ℝ) (count : ℕ) : List ℝ :=
  if count ≤ 1 then [minVolume]
  else grpLoop (goldenRatioRatio minVolume maxVolume count) maxVolume count count 0 minVolume

/-- `BottleGenerationService.logarithmicProgression(minVolume, maxVolume, count)`:
evenly spaced in log-space; `count ≤ 1` returns `[min]`. -/
noncomputable def logarithmicProgression (minVolume maxVolume : ℝ) (count : ℕ) : List ℝ :=
  if count ≤ 1 then [minVolume]
  else
    let logMin := Real.log minVolume
    let logMax := Real.log maxVolume
    let logStep := (logMax - logMin) / ((count : ℝ) - 1)
    (List.range count).map fun i =>
      ((round (Real.exp (logMin + logStep * (i : ℝ))) : ℤ) : ℝ)

/-- `BottleGenerationService.calculateVolumes(config)`: dispatch on the
algorithm tag (the `default` switch branch is unreachable for the closed
enumeration). -/
noncomputable def calculateVolumes (config : GenerationConfig ℝ) : List ℝ :=
  match config.algorithm with
  | .linear => linearProgression config.minVolume config.maxVolume config.bottleCount
  | .goldenRatio => goldenRatioProgression config.minVolume config.maxVolume config.bottleCount
  | .logarithmic => logarithmicProgression config.minVolume config.maxVolume config.bottleCount

/-! ### Helper lemmas about gap sweeps and severity -/

theorem assessGapSeverity_minor_iff (s : α) :
    assessGapSeverity s = .minor ↔ s ≤ 20 := by
  simp only [assessGapSeverity, GAP_SEVERITY_THRESHOLDS]
  split_ifs with h1 h2
  · exact iff_of_true rfl h1
  · exact iff_of_false (by simp) h1
  · exact iff_of_false (by simp) h1

theorem assessGapSeverity_moderate_iff (s : α) :
    assessGapSeverity s = .moderate ↔ 20 < s ∧ s ≤ 50 := by
  simp only [assessGapSeverity, GAP_SEVERITY_THRESHOLDS]
  split_ifs with h1 h2
  · exact iff_of_false (by simp) (by push_neg; intro h; linarith)
  · exact iff_of_true rfl ⟨by linarith [not_le.mp h1], h2⟩
  · exact iff_of_false (by simp) (by push_neg; intro h; linarith [not_le.mp h2])

theorem assessGapSeverity_major_iff (s : α) :
    assessGapSeverity s = .major ↔ 50 < s := by
  simp only [assessGapSeverity, GAP_SEVERITY_THRESHOLDS]
  split_ifs with h1 h2
  · exact iff_of_false (by simp) (by push_neg; linarith)
  · exact iff_of_false (by simp) (by push_neg; linarith [not_le.mp h1])
  · exact iff_of_true rfl (not_le.mp h2)

/-- Every gap emitted by the sweep loop has a positive extent, a size equal
to that extent, and the severity computed from its size. -/
theorem mem_gapSweep_spec :
    ∀ (m : α) (l : List (FillRange α)) (g : CoverageGap α), g ∈ gapSweep m l →
      g.startVolume < g.endVolume ∧ g.gapSize = g.endVolume - g.startVolume ∧
        g.severity = assessGapSeverity g.gapSize
  | _, [], _, hg => by simp [gapSweep] at hg
  | m, r :: rest, g, hg => by
    rw [gapSweep] at hg
    by_cases h : m < r.minFill
    · rw [if_pos h, List.mem_cons] at hg
      rcases hg with hg | hg
      · subst hg
        exact ⟨h, rfl, rfl⟩
      · exact mem_gapSweep_spec _ rest g hg
    · rw [if_neg h] at hg
      exact mem_gapSweep_spec _ rest g hg

theorem mem_findGaps_spec (ranges1 ranges2 : List (FillRange α))
    (g : CoverageGap α) (hg : g ∈ findGaps ranges1 ranges2) :
    g.startVolume < g.endVolume ∧ g.gapSize = g.endVolume - g.startVolume ∧
      g.severity = assessGapSeverity g.gapSize := by
  unfold findGaps at hg
  rcases hs : sortByMinFill (ranges1 ++ ranges2) with _ | ⟨first, rest⟩ <;> rw [hs] at hg
  · simp at hg
  · exact mem_gapSweep_spec _ rest g hg

theorem mem_findIntraSeriesGaps_spec (ranges : List (FillRange α))
    (g : CoverageGap α) (hg : g ∈ findIntraSeriesGaps ranges) :
    g.startVolume < g.endVolume ∧ g.gapSize = g.endVolume - g.startVolume ∧
      g.severity = assessGapSeverity g.gapSize := by
  unfold findIntraSeriesGaps at hg
  by_cases hl : ranges.length ≤ 1
  · rw [if_pos hl] at hg; simp at hg
  · rw [if_neg hl] at hg
    rcases hs : sortByMinFill ranges with _ | ⟨first, rest⟩ <;> rw [hs] at hg
    · simp at hg
    · exact mem_gapSweep_spec _ rest g hg

/-- The inter-series gap finder coincides with the intra-series gap finder
applied to the pooled list of ranges. -/
theorem findGaps_eq_findIntraSeriesGaps_append (ranges1 ranges2 : List (FillRange α)) :
    findGaps ranges1 ranges2 = findIntraSeriesGaps (ranges1 ++ ranges2) := by
  by_cases hl : (ranges1 ++ ranges2).length ≤ 1
  · rcases hr : ranges1 ++ ranges2 with _ | ⟨x, _ | ⟨y, t⟩⟩
    · simp [findGaps, findIntraSeriesGaps, hr, sortByMinFill, List.insertionSort]
    · simp [findGaps, findIntraSeriesGaps, hr, sortByMinFill, List.insertionSort,
        List.orderedInsert, gapSweep]
    · rw [hr] at hl; simp at hl
  · unfold findGaps findIntraSeriesGaps
    rw [if_neg hl]

/-! ### Claim C4 -/

/-- C4: `findGaps` pools both series' fill ranges and runs exactly the
intra-series sweep on the pooled list (sort by `minFill`, emit a gap
`[runningMax, nextMin)` with a severity tag exactly when the next range's
`minFill` exceeds the running maximum of `maxFill`); in particular, for
series A fill ranges `[[42,55],[68,89]]` and series B fill ranges
`[[50,70]]`, `findGaps` returns zero gaps. -/
theorem claimC4_findGaps_pooled_sweep :
    (∀ ranges1 ranges2 : List (FillRange ℝ),
      findGaps ranges1 ranges2 = findIntraSeriesGaps (ranges1 ++ ranges2)) ∧
    findGaps ([⟨"a1", 0, 42, 0, 55, 0, 0, 0⟩, ⟨"a2", 0, 68, 0, 89, 0, 0, 0⟩] :
        List (FillRange ℝ)) [⟨"b1", 0, 50, 0, 70, 0, 0, 0⟩] = [] := by
  refine ⟨findGaps_eq_findIntraSeriesGaps_append, ?_⟩
  norm_num [findGaps, sortByMinFill, List.insertionSort, List.orderedInsert, fillLE, gapSweep]

/-! ### Claim C5 -/

/-- C5 (counterexample): with percentages inside `[0,100]` but
`minPercent > maxPercent` (here 85 and 65, volume 100), the fill range
violates `minFill ≤ targetFill`; and with `minPercent ≤ maxPercent` but a
negative bottle volume it is violated as well, so the claim as stated
(quantified over every bottle and all percentages in `[0,100]`) is false. -/
theorem claimC5_counterexample :
    ((0:ℝ) ≤ 85 ∧ (85:ℝ) ≤ 100 ∧ (0:ℝ) ≤ 65 ∧ (65:ℝ) ≤ 100 ∧
      ¬ ((calculateFillRange (⟨"b", (100:ℝ)⟩ : Bottle ℝ) 85 65).minFill ≤
          (calculateFillRange (⟨"b", (100:ℝ)⟩ : Bottle ℝ) 85 65).targetFill)) ∧
    ¬ ((calculateFillRange (⟨"b", (-100:ℝ)⟩ : Bottle ℝ) 65 85).minFill ≤
        (calculateFillRange (⟨"b", (-100:ℝ)⟩ : Bottle ℝ) 65 85).targetFill) := by
  norm_num [calculateFillRange]

/-- C5 (amended): for every bottle with nonnegative volume and percentages
`0 ≤ minPercent ≤ maxPercent ≤ 100`, the fill range computed by
`calculateFillRange` has `minFill = volume·minPercent/100`,
`targetFill = volume·((minPercent+maxPercent)/2)/100`,
`maxFill = volume·maxPercent/100`, and satisfies
`minFill ≤ targetFill ≤ maxFill ≤ bottleVolume`. -/
theorem claimC5_fillRange_invariant (b : Bottle ℝ) (minPercent maxPercent : ℝ)
    (_h0 : 0 ≤ minPercent) (h1 : minPercent ≤ maxPercent) (h2 : maxPercent ≤ 100)
    (hv : 0 ≤ b.volume) :
    ((calculateFillRange b minPercent maxPercent).minFill = b.volume * minPercent / 100 ∧
     (calculateFillRange b minPercent maxPercent).targetFill =
        b.volume * ((minPercent + maxPercent) / 2) / 100 ∧
     (calculateFillRange b minPercent maxPercent).maxFill = b.volume * maxPercent / 100) ∧
    (calculateFillRange b minPercent maxPercent).minFill ≤
        (calculateFillRange b minPercent maxPercent).targetFill ∧
    (calculateFillRange b minPercent maxPercent).targetFill ≤
        (calculateFillRange b minPercent maxPercent).maxFill ∧
    (calculateFillRange b minPercent maxPercent).maxFill ≤
        (calculateFillRange b minPercent maxPercent).bottleVolume := by
  have hm : 0 ≤ b.volume * (maxPercent - minPercent) := by
    exact mul_nonneg hv (by linarith)
  have hm2 : 0 ≤ b.volume * (100 - maxPercent) := by
    exact mul_nonneg hv (by linarith)
  refine ⟨⟨rfl, rfl, rfl⟩, ?_, ?_, ?_⟩ <;> simp only [calculateFillRange] <;> nlinarith

/-- Witness for C5 (amended) at bottle volume 200, percentages 65 and 85. -/
theorem claimC5_fillRange_invariant_witness :
    (0:ℝ) ≤ 65 ∧ (65:ℝ) ≤ 85 ∧ (85:ℝ) ≤ 100 ∧ 0 ≤ (⟨"w", (200:ℝ)⟩ : Bottle ℝ).volume ∧
    (((calculateFillRange (⟨"w", (200:ℝ)⟩ : Bottle ℝ) 65 85).minFill =
        (⟨"w", (200:ℝ)⟩ : Bottle ℝ).volume * 65 / 100 ∧
      (calculateFillRange (⟨"w", (200:ℝ)⟩ : Bottle ℝ) 65 85).targetFill =
        (⟨"w", (200:ℝ)⟩ : Bottle ℝ).volume * ((65 + 85) / 2) / 100 ∧
      (calculateFillRange (⟨"w", (200:ℝ)⟩ : Bottle ℝ) 65 85).maxFill =
        (⟨"w", (200:ℝ)⟩ : Bottle ℝ).volume * 85 / 100) ∧
     (calculateFillRange (⟨"w", (200:ℝ)⟩ : Bottle ℝ) 65 85).minFill ≤
        (calculateFillRange (⟨"w", (200:ℝ)⟩ : Bottle ℝ) 65 85).targetFill ∧
     (calculateFillRange (⟨"w", (200:ℝ)⟩ : Bottle ℝ) 65 85).targetFill ≤
        (calculateFillRange (⟨"w", (200:ℝ)⟩ : Bottle ℝ) 65 85).maxFill ∧
     (calculateFillRange (⟨"w", (200:ℝ)⟩ : Bottle ℝ) 65 85).maxFill ≤
        (calculateFillRange (⟨"w", (200:ℝ)⟩ : Bottle ℝ) 65 85).bottleVolume) :=
  ⟨by norm_num, by norm_num, by norm_num, by norm_num,
    claimC5_fillRange_invariant _ 65 85 (by norm_num) (by norm_num) (by norm_num) (by norm_num)⟩

/-! ### Claim C7 -/

/-- C7: every gap emitted by `findGaps` or `findIntraSeriesGaps` is tagged
`minor` iff its size is at most 20 mL, `moderate` iff its size is in
(20, 50], and `major` iff its size exceeds 50 mL; in particular a gap size
of 5 is assessed `minor`, 35 is `moderate` and 60 is `major`. -/
theorem claimC7_gap_severity :
    (∀ ranges1 ranges2 : List (FillRange ℝ), ∀ g ∈ findGaps ranges1 ranges2,
      (g.severity = .minor ↔ g.gapSize ≤ 20) ∧
      (g.severity = .moderate ↔ 20 < g.gapSize ∧ g.gapSize ≤ 50) ∧
      (g.severity = .major ↔ 50 < g.gapSize)) ∧
    (∀ ranges : List (FillRange ℝ), ∀ g ∈ findIntraSeriesGaps ranges,
      (g.severity = .minor ↔ g.gapSize ≤ 20) ∧
      (g.severity = .moderate ↔ 20 < g.gapSize ∧ g.gapSize ≤ 50) ∧
      (g.severity = .major ↔ 50 < g.gapSize)) ∧
    assessGapSeverity (5:ℝ) = .minor ∧ assessGapSeverity (35:ℝ) = .moderate ∧
      assessGapSeverity (60:ℝ) = .major := by
  refine ⟨fun r1 r2 g hg => ?_, fun r g hg => ?_, ?_, ?_, ?_⟩
  · obtain ⟨-, -, hsev⟩ := mem_findGaps_spec r1 r2 g hg
    rw [hsev]
    exact ⟨assessGapSeverity_minor_iff _, assessGapSeverity_moderate_iff _,
      assessGapSeverity_major_iff _⟩
  · obtain ⟨-, -, hsev⟩ := mem_findIntraSeriesGaps_spec r g hg
    rw [hsev]
    exact ⟨assessGapSeverity_minor_iff _, assessGapSeverity_moderate_iff _,
      assessGapSeverity_major_iff _⟩
  · norm_num [assessGapSeverity, GAP_SEVERITY_THRESHOLDS]
  · norm_num [assessGapSeverity, GAP_SEVERITY_THRESHOLDS]
  · norm_num [assessGapSeverity, GAP_SEVERITY_THRESHOLDS]

/-- Witness for C7: the pooled ranges `[0,10]` and `[40,95]` produce the
gap `[10, 40)` of size 30, which is classified `moderate`. -/
theorem claimC7_gap_severity_witness :
    (⟨10, 40, 30, .moderate⟩ : CoverageGap ℝ) ∈
        findGaps [(⟨"x", 0, 0, 0, 10, 0, 0, 0⟩ : FillRange ℝ)] [⟨"y", 0, 40, 0, 95, 0, 0, 0⟩] ∧
    (((⟨10, 40, 30, .moderate⟩ : CoverageGap ℝ).severity = .minor ↔
        (⟨10, 40, 30, .moderate⟩ : CoverageGap ℝ).gapSize ≤ 20) ∧
     ((⟨10, 40, 30, .moderate⟩ : CoverageGap ℝ).severity = .moderate ↔
        20 < (⟨10, 40, 30, .moderate⟩ : CoverageGap ℝ).gapSize ∧
          (⟨10, 40, 30, .moderate⟩ : CoverageGap ℝ).gapSize ≤ 50) ∧
     ((⟨10, 40, 30, .moderate⟩ : CoverageGap ℝ).severity = .major ↔
        50 < (⟨10, 40, 30, .moderate⟩ : CoverageGap ℝ).gapSize)) := by
  have hmem : (⟨10, 40, 30, .moderate⟩ : CoverageGap ℝ) ∈
      findGaps [(⟨"x", 0, 0, 0, 10, 0, 0, 0⟩ : FillRange ℝ)] [⟨"y", 0, 40, 0, 95, 0, 0, 0⟩] := by
    norm_num [findGaps, sortByMinFill, List.insertionSort, List.orderedInsert, fillLE,
      gapSweep, assessGapSeverity, GAP_SEVERITY_THRESHOLDS]
  exact ⟨hmem, claimC7_gap_severity.1 _ _ _ hmem⟩

/-! ### Claim C10 -/

/-- C10: every gap returned by `findGaps` or `findIntraSeriesGaps` has
`startVolume < endVolume` and `gapSize = endVolume - startVolume > 0`, and
inputs with at most one range in total produce an empty gap list. -/
theorem claimC10_gap_wellformed :
    (∀ ranges : List (FillRange ℝ), ∀ g ∈ findIntraSeriesGaps ranges,
      g.startVolume < g.endVolume ∧ g.gapSize = g.endVolume - g.startVolume ∧ 0 < g.gapSize) ∧
    (∀ ranges1 ranges2 : List (FillRange ℝ), ∀ g ∈ findGaps ranges1 ranges2,
      g.startVolume < g.endVolume ∧ g.gapSize = g.endVolume - g.startVolume ∧ 0 < g.gapSize) ∧
    (∀ ranges : List (FillRange ℝ), ranges.length ≤ 1 → findIntraSeriesGaps ranges = []) ∧
    (∀ ranges1 ranges2 : List (FillRange ℝ), ranges1.length + ranges2.length ≤ 1 →
      findGaps ranges1 ranges2 = []) := by
  refine ⟨fun r g hg => ?_, fun r1 r2 g hg => ?_, fun r hr => ?_, fun r1 r2 hr => ?_⟩
  · obtain ⟨hlt, hsz, -⟩ := mem_findIntraSeriesGaps_spec r g hg
    exact ⟨hlt, hsz, by rw [hsz]; linarith⟩
  · obtain ⟨hlt, hsz, -⟩ := mem_findGaps_spec r1 r2 g hg
    exact ⟨hlt, hsz, by rw [hsz]; linarith⟩
  · unfold findIntraSeriesGaps
    rw [if_pos hr]
  · rw [findGaps_eq_findIntraSeriesGaps_append]
    unfold findIntraSeriesGaps
    rw [if_pos (by simpa using hr)]

/-- Witness for C10: the ranges `[0,5]` and `[100,130]` produce the gap
`[5, 100)` of size 95, which is well-formed; a singleton input yields no
gaps. -/
theorem claimC10_gap_wellformed_witness :
    ((⟨5, 100, 95, .major⟩ : CoverageGap ℝ) ∈
        findIntraSeriesGaps [(⟨"x", 0, 0, 0, 5, 0, 0, 0⟩ : FillRange ℝ),
          ⟨"y", 0, 100, 0, 130, 0, 0, 0⟩] ∧
      ((⟨5, 100, 95, .major⟩ : CoverageGap ℝ).startVolume <
          (⟨5, 100, 95, .major⟩ : CoverageGap ℝ).endVolume ∧
        (⟨5, 100, 95, .major⟩ : CoverageGap ℝ).gapSize =
          (⟨5, 100, 95, .major⟩ : CoverageGap ℝ).endVolume -
            (⟨5, 100, 95, .major⟩ : CoverageGap ℝ).startVolume ∧
        0 < (⟨5, 100, 95, .major⟩ : CoverageGap ℝ).gapSize)) ∧
    (([(⟨"z", 0, 3, 0, 7, 0, 0, 0⟩ : FillRange ℝ)].length ≤ 1) ∧
      findIntraSeriesGaps [(⟨"z", 0, 3, 0, 7, 0, 0, 0⟩ : FillRange ℝ)] = []) := by
  have hmem : (⟨5, 100, 95, .major⟩ : CoverageGap ℝ) ∈
      findIntraSeriesGaps [(⟨"x", 0, 0, 0, 5, 0, 0, 0⟩ : FillRange ℝ),
        ⟨"y", 0, 100, 0, 130, 0, 0, 0⟩] := by
    norm_num [findIntraSeriesGaps, sortByMinFill, List.insertionSort, List.orderedInsert,
      fillLE, gapSweep, assessGapSeverity, GAP_SEVERITY_THRESHOLDS]
  exact ⟨⟨hmem, claimC10_gap_wellformed.1 _ _ hmem⟩,
    by norm_num, claimC10_gap_wellformed.2.2.1 _ (by norm_num)⟩

/-! ### Claim C8 -/

/-- C8: every one of the three progression algorithms returns the
single-element list `[minVolume]` whenever the requested count is at most
one (the `(n-1)` divisions are guarded); in particular
`calculateVolumes` with algorithm golden-ratio, count 1 and min 65
returns `[65]` for any max volume, template id and fill percentages. -/
theorem claimC8_count_le_one :
    (∀ (minVolume maxVolume : ℝ) (count : ℕ), count ≤ 1 →
      linearProgression minVolume maxVolume count = [minVolume] ∧
      goldenRatioProgression minVolume maxVolume count = [minVolume] ∧
      logarithmicProgression minVolume maxVolume count = [minVolume]) ∧
    (∀ (maxVolume fillMin fillMax : ℝ) (tid : String),
      calculateVolumes ⟨.goldenRatio, 65, maxVolume, 1, tid, fillMin, fillMax⟩ = [65]) := by
  refine ⟨fun minV maxV c hc => ?_, fun maxV fmin fmax tid => ?_⟩
  · refine ⟨?_, ?_, ?_⟩
    · unfold linearProgression; rw [if_pos hc]
    · unfold goldenRatioProgression; rw [if_pos hc]
    · unfold logarithmicProgression; rw [if_pos hc]
  · show goldenRatioProgression 65 maxV 1 = [65]
    unfold goldenRatioProgression
    rw [if_pos (by norm_num)]

/-- Witness for C8 at count 1, min volume 65, max volume 400. -/
theorem claimC8_count_le_one_witness :
    (1 : ℕ) ≤ 1 ∧
    (linearProgression 65 400 1 = [(65:ℝ)] ∧
      goldenRatioProgression 65 400 1 = [(65:ℝ)] ∧
      logarithmicProgression 65 400 1 = [(65:ℝ)]) :=
  ⟨le_refl 1, claimC8_count_le_one.1 65 400 1 (le_refl 1)⟩

/-! ### Helper lemmas about the golden-ratio loop -/

theorem grpLoop_length (ratio maxVolume : ℝ) (count : ℕ) :
    ∀ (rem i : ℕ) (current : ℝ), (grpLoop ratio maxVolume count rem i current).length = rem
  | 0, _, _ => rfl
  | rem + 1, i, current => by
    rw [grpLoop]
    simp [grpLoop_length ratio maxVolume count rem]

/-- Elements of the golden-ratio loop at positions that are pushed strictly
before the overwrite of the accumulator (global index at most `count - 2`)
are `round(current · ratio^j)`. -/
theorem grpLoop_getElem_eq (ratio maxVolume : ℝ) (count : ℕ) :
    ∀ (j rem i : ℕ) (current : ℝ), j < rem → i + j + 2 ≤ count →
      (grpLoop ratio maxVolume count rem i current)[j]? =
        some ((round (current * ratio ^ j) : ℤ) : ℝ)
  | 0, rem + 1, i, current, _, _ => by
    rw [grpLoop]
    simp
  | j + 1, rem + 1, i, current, hrem, hcount => by
    rw [grpLoop]
    have hi : ¬ i = count - 2 := by omega
    rw [if_neg hi, List.getElem?_cons_succ,
      grpLoop_getElem_eq ratio maxVolume count j rem (i + 1) (current * ratio)
        (by omega) (by omega),
      show current * ratio * ratio ^ j = current * ratio ^ (j + 1) by ring]

/-- The element of the golden-ratio loop at the final position `rem - 1`
(global index `count - 1`) is `round maxVolume`: the overwrite of the
accumulator at `i = count - 2` takes effect exactly on the final element. -/
theorem grpLoop_getElem_last (ratio maxVolume : ℝ) (count : ℕ) :
    ∀ (rem : ℕ), 2 ≤ rem → ∀ (i : ℕ) (current : ℝ), i + rem = count →
      (grpLoop ratio maxVolume count rem i current)[rem - 1]? =
        some ((round maxVolume : ℤ) : ℝ) := by
  intro rem hrem
  induction rem, hrem using Nat.le_induction with
  | base =>
    intro i current hi
    have h2 : i = count - 2 := by omega
    rw [grpLoop, if_pos h2, grpLoop, grpLoop]
    simp
  | succ n hn ih =>
    intro i current hi
    rw [grpLoop]
    obtain ⟨m, rfl⟩ : ∃ m, n = m + 1 := ⟨n - 1, by omega⟩
    rw [show m + 1 + 1 - 1 = m + 1 by omega, List.getElem?_cons_succ,
      show m + 1 = m + 1 + 1 - 1 by omega]
    exact ih (i + 1) _ (by omega)

/-! ### Claim C1 -/

/-- C1 (counterexample): with `minVolume = 100`, `maxVolume = 110` and
`count = 3` (so `n ≥ 3` and `0 < min ≤ max`), the golden-ratio progression
is `[100, 162, 110]`: the element at index `n - 2 = 1` is `162`, not the
maximum volume `110`, and the final element is exactly `round 110 = 110`
rather than the index-`n-2` value multiplied by the ratio.  The overwrite
of the accumulator happens after the element at index `n - 2` is pushed,
so it is the final element, not the second-to-last, that is forced to the
(rounded) maximum. -/
theorem claimC1_counterexample :
    goldenRatioProgression 100 110 3 = [100, 162, 110] ∧
    (goldenRatioProgression 100 110 3)[1]? ≠ some (110 : ℝ) := by
  have hratio : goldenRatioRatio 100 110 3 = PHI := by
    unfold goldenRatioRatio
    have h1 : ((110 : ℝ) / 100) ^ ((1 : ℝ) / (((3:ℕ) : ℝ) - 1)) ≤ PHI := by
      rw [show ((110 : ℝ) / 100) = 1.1 by norm_num,
        show ((1 : ℝ) / (((3:ℕ) : ℝ) - 1)) = (1/2 : ℝ) by norm_num, ← Real.sqrt_eq_rpow]
      have h := Real.sqrt_le_sqrt (show (1.1:ℝ) ≤ PHI ^ 2 by unfold PHI; norm_num)
      rwa [Real.sqrt_sq (by unfold PHI; norm_num)] at h
    simp only [h1, if_pos]
  have hlist : goldenRatioProgression 100 110 3 = [100, 162, 110] := by
    unfold goldenRatioProgression
    rw [if_neg (by norm_num), hratio, grpLoop, grpLoop, grpLoop, grpLoop]
    norm_num [PHI, round_eq]
  refine ⟨hlist, ?_⟩
  rw [hlist]
  norm_num

/-- C1 (amended): for `n ≥ 3` and `0 < minVolume ≤ maxVolume`, the element
at index `n - 2` of the golden-ratio progression is
`round(minVolume · ratio^(n-2))` — the cap to `maxVolume` is not applied to
it — and the final element at index `n - 1` is exactly `round maxVolume`
(the accumulator is overwritten with `maxVolume` after the element at
index `n - 2` is emitted, so the overwrite lands on the final element; it
is the index-`n-2` element, not the final one, that can exceed
`maxVolume`, as the counterexample `[100, 162, 110]` shows). -/
theorem claimC1_goldenRatio_cap_position (minVolume maxVolume : ℝ) (n : ℕ)
    (hn : 3 ≤ n) (_hmin : 0 < minVolume) (_hle : minVolume ≤ maxVolume) :
    (goldenRatioProgression minVolume maxVolume n)[n - 2]? =
      some ((round (minVolume * goldenRatioRatio minVolume maxVolume n ^ (n - 2)) : ℤ) : ℝ) ∧
    (goldenRatioProgression minVolume maxVolume n)[n - 1]? =
      some ((round maxVolume : ℤ) : ℝ) := by
  unfold goldenRatioProgression
  rw [if_neg (by omega)]
  constructor
  · exact grpLoop_getElem_eq _ _ _ (n - 2) n 0 _ (by omega) (by omega)
  · exact grpLoop_getElem_last _ _ _ n (by omega) 0 _ (by omega)

/-- Witness for C1 (amended) at `minVolume = 100`, `maxVolume = 110`,
`n = 3`. -/
theorem claimC1_goldenRatio_cap_position_witness :
    (3:ℕ) ≤ 3 ∧ (0:ℝ) < 100 ∧ (100:ℝ) ≤ 110 ∧
    ((goldenRatioProgression 100 110 3)[(3:ℕ) - 2]? =
        some ((round ((100:ℝ) * goldenRatioRatio 100 110 3 ^ ((3:ℕ) - 2)) : ℤ) : ℝ) ∧
      (goldenRatioProgression 100 110 3)[(3:ℕ) - 1]? = some ((round (110:ℝ) : ℤ) : ℝ)) :=
  ⟨le_refl 3, by norm_num, by norm_num,
    claimC1_goldenRatio_cap_position 100 110 3 (le_refl 3) (by norm_num) (by norm_num)⟩

/-! ### Claim C9 -/

/-- C9: for every positive `minVolume` and `maxVolume` and every count at
least 2, the last element of the golden-ratio progression is exactly
`round maxVolume`: the overwrite of the accumulator at iteration
`count - 2` takes effect on the final element, which therefore never
exceeds the rounded maximum volume. -/
theorem claimC9_goldenRatio_last_is_rounded_max (minVolume maxVolume : ℝ) (count : ℕ)
    (_hmin : 0 < minVolume) (_hmax : 0 < maxVolume) (hc : 2 ≤ count) :
    (goldenRatioProgression minVolume maxVolume count).getLast? =
      some ((round maxVolume : ℤ) : ℝ) := by
  unfold goldenRatioProgression
  rw [if_neg (by omega), List.getLast?_eq_getElem?, grpLoop_length]
  exact grpLoop_getElem_last _ _ _ count hc 0 _ (by omega)

/-- Witness for C9 at `minVolume = 50`, `maxVolume = 80.3`, `count = 4`
(the last element is `round 80.3 = 80`). -/
theorem claimC9_goldenRatio_last_is_rounded_max_witness :
    (0:ℝ) < 50 ∧ (0:ℝ) < 80.3 ∧ (2:ℕ) ≤ 4 ∧
    (goldenRatioProgression 50 80.3 4).getLast? = some ((80 : ℤ) : ℝ) := by
  refine ⟨by norm_num, by norm_num, by norm_num, ?_⟩
  rw [claimC9_goldenRatio_last_is_rounded_max 50 80.3 4 (by norm_num) (by norm_num) (by norm_num)]
  rw [round_eq]
  norm_num

/-! ### Helper lemmas for the union-length correctness of the coverage sweep -/

open MeasureTheory

theorem mem_unionIcc {x : ℝ} :
    ∀ {l : List (FillRange ℝ)},
      x ∈ unionIcc l ↔ ∃ r, r ∈ l ∧ r.minFill ≤ x ∧ x ≤ r.maxFill
  | [] => by simp [unionIcc]
  | r :: rest => by
    simp only [unionIcc, Set.mem_union, Set.mem_Icc, mem_unionIcc, List.mem_cons]
    constructor
    · rintro (⟨h1, h2⟩ | ⟨r', hr', h⟩)
      · exact ⟨r, Or.inl rfl, h1, h2⟩
      · exact ⟨r', Or.inr hr', h⟩
    · rintro ⟨r', rfl | hr', h⟩
      · exact Or.inl h
      · exact Or.inr ⟨r', hr', h⟩

theorem measurableSet_unionIcc : ∀ (l : List (FillRange ℝ)), MeasurableSet (unionIcc l)
  | [] => MeasurableSet.empty
  | _ :: rest => measurableSet_Icc.union (measurableSet_unionIcc rest)

theorem unionIcc_eq_biUnion (l : List (FillRange ℝ)) :
    unionIcc l = ⋃ r ∈ l, Set.Icc r.minFill r.maxFill := by
  ext x
  simp only [mem_unionIcc, Set.mem_iUnion, Set.mem_Icc, exists_prop]

theorem coverageSweep_nonneg : ∀ (m : ℝ) (l : List (FillRange ℝ)), 0 ≤ coverageSweep m l
  | _, [] => le_refl 0
  | m, r :: rest => by
    rw [coverageSweep]
    by_cases h : max r.minFill m < r.maxFill
    · rw [if_pos h]
      have := coverageSweep_nonneg (max m r.maxFill) rest
      linarith
    · rw [if_neg h]
      exact coverageSweep_nonneg m rest

theorem volume_Icc_inter_Ioi (a b m : ℝ) :
    volume (Set.Icc a b ∩ Set.Ioi m) = ENNReal.ofReal (b - max a m) := by
  rcases lt_or_le m a with h | h
  · have hsub : Set.Icc a b ⊆ Set.Ioi m := fun x hx => lt_of_lt_of_le h hx.1
    rw [Set.inter_eq_left.mpr hsub, Real.volume_Icc, max_eq_left h.le]
  · rw [show Set.Icc a b ∩ Set.Ioi m = Set.Ioc m b from ?_, Real.volume_Ioc, max_eq_right h]
    ext x
    simp only [Set.mem_inter_iff, Set.mem_Icc, Set.mem_Ioi, Set.mem_Ioc]
    exact ⟨fun ⟨⟨_, hb⟩, hm⟩ => ⟨hm, hb⟩, fun ⟨hm, hb⟩ => ⟨⟨le_trans h hm.le, hb⟩, hm⟩⟩

theorem volume_union_null_right (s t : Set ℝ) (ht : volume t = 0) :
    volume (s ∪ t) = volume s :=
  le_antisymm (le_trans (measure_union_le s t) (by rw [ht, add_zero]))
    (measure_mono Set.subset_union_left)

/-- Invariant of the coverage sweep: on a list sorted by `minFill` whose
ranges all satisfy `minFill ≤ maxFill`, the sweep started at running
maximum `m` accumulates exactly the Lebesgue measure of the part of the
union of the intervals lying strictly above `m`. -/
theorem coverageSweep_volume :
    ∀ (l : List (FillRange ℝ)) (m : ℝ), List.Sorted (@fillLE ℝ _) l →
      (∀ r ∈ l, r.minFill ≤ r.maxFill) →
      ENNReal.ofReal (coverageSweep m l) = volume (unionIcc l ∩ Set.Ioi m)
  | [], m, _, _ => by simp [coverageSweep, unionIcc]
  | r :: rest, m, hs, hwf => by
    obtain ⟨hhead, hs'⟩ := List.sorted_cons.mp hs
    have hwf' : ∀ x ∈ rest, x.minFill ≤ x.maxFill := fun x hx => hwf x (List.mem_cons_of_mem _ hx)
    rw [coverageSweep]
    by_cases h : max r.minFill m < r.maxFill
    · rw [if_pos h]
      have hm_le : m ≤ r.maxFill := le_trans (le_max_right _ _) h.le
      have hset : unionIcc (r :: rest) ∩ Set.Ioi m =
          (Set.Icc r.minFill r.maxFill ∩ Set.Ioi m) ∪
            (unionIcc rest ∩ Set.Ioi r.maxFill) := by
        ext x
        simp only [unionIcc, Set.mem_inter_iff, Set.mem_union, Set.mem_Icc, Set.mem_Ioi]
        constructor
        · rintro ⟨⟨h1, h2⟩ | hx, hm⟩
          · exact Or.inl ⟨⟨h1, h2⟩, hm⟩
          · rcases lt_or_le r.maxFill x with hgt | hle
            · exact Or.inr ⟨hx, hgt⟩
            · obtain ⟨r', hr', hr'x, -⟩ := mem_unionIcc.mp hx
              have hmin : r.minFill ≤ r'.minFill := hhead r' hr'
              exact Or.inl ⟨⟨le_trans hmin hr'x, hle⟩, hm⟩
        · rintro (⟨hx, hm⟩ | ⟨hx, hgt⟩)
          · exact ⟨Or.inl hx, hm⟩
          · exact ⟨Or.inr hx, lt_of_le_of_lt hm_le hgt⟩
      have hdisj : Disjoint (Set.Icc r.minFill r.maxFill ∩ Set.Ioi m)
          (unionIcc rest ∩ Set.Ioi r.maxFill) := by
        rw [Set.disjoint_left]
        rintro x ⟨⟨-, hxb⟩, -⟩ ⟨-, hxg⟩
        exact absurd hxb (not_le.mpr hxg)
      rw [hset, measure_union hdisj ((measurableSet_unionIcc rest).inter measurableSet_Ioi),
        volume_Icc_inter_Ioi,
        ENNReal.ofReal_add (by linarith) (coverageSweep_nonneg _ _),
        coverageSweep_volume rest (max m r.maxFill) hs' hwf', max_eq_right hm_le]
    · rw [if_neg h, coverageSweep_volume rest m hs' hwf']
      have hnull : volume (Set.Icc r.minFill r.maxFill ∩ Set.Ioi m) = 0 := by
        rw [volume_Icc_inter_Ioi]
        exact ENNReal.ofReal_eq_zero.mpr (by linarith [not_lt.mp h])
      have : unionIcc (r :: rest) ∩ Set.Ioi m =
          (unionIcc rest ∩ Set.Ioi m) ∪ (Set.Icc r.minFill r.maxFill ∩ Set.Ioi m) := by
        show (Set.Icc r.minFill r.maxFill ∪ unionIcc rest) ∩ Set.Ioi m = _
        rw [Set.union_inter_distrib_right, Set.union_comm]
      rw [this, volume_union_null_right _ _ hnull]

theorem getTotalCoverage_nonneg (ranges : List (FillRange ℝ)) :
    0 ≤ getTotalCoverage ranges := by
  unfold getTotalCoverage
  rcases hs : sortByMinFill ranges with _ | ⟨first, rest⟩
  · exact le_refl 0
  · exact coverageSweep_nonneg _ _

/-! ### Claim C3 -/

/-- C3: for every list of fill ranges in which each range satisfies
`minFill ≤ maxFill`, `getTotalCoverage` returns the total length (Lebesgue
measure) of the union of the intervals `[minFill, maxFill]`, counting
overlapping portions once; in particular, for the ranges `[0,10]` and
`[5,15]` it returns 15, not 20. -/
theorem claimC3_total_coverage_is_union_length :
    (∀ ranges : List (FillRange ℝ), (∀ r ∈ ranges, r.minFill ≤ r.maxFill) →
      getTotalCoverage ranges =
        (volume (⋃ r ∈ ranges, Set.Icc r.minFill r.maxFill)).toReal) ∧
    getTotalCoverage [(⟨"b1", 0, 0, 0, 10, 0, 0, 0⟩ : FillRange ℝ),
      ⟨"b2", 0, 5, 0, 15, 0, 0, 0⟩] = 15 := by
  constructor
  · intro ranges hwf
    have key : ENNReal.ofReal (getTotalCoverage ranges) =
        volume (⋃ r ∈ ranges, Set.Icc r.minFill r.maxFill) := by
      unfold getTotalCoverage
      rcases hs : sortByMinFill ranges with _ | ⟨first, rest⟩
      · have hlen : ranges.length = 0 := by
          have := List.length_insertionSort (@fillLE ℝ _) ranges
          rw [show List.insertionSort (@fillLE ℝ _) ranges = sortByMinFill ranges from rfl,
            hs] at this
          simpa using this.symm
        rcases ranges with _ | ⟨a, l⟩
        · simp
        · simp at hlen
      · have hperm : List.Perm (first :: rest) ranges := by
          rw [← hs]
          exact List.perm_insertionSort _ ranges
        have hsort : List.Sorted (@fillLE ℝ _) (first :: rest) := by
          rw [← hs]
          exact List.sorted_insertionSort _ ranges
        have hwf2 : ∀ x ∈ first :: rest, x.minFill ≤ x.maxFill :=
          fun x hx => hwf x (hperm.subset hx)
        rw [coverageSweep_volume _ _ hsort hwf2]
        have hmin : ∀ x ∈ first :: rest, first.minFill ≤ x.minFill := by
          intro x hx
          rcases List.mem_cons.mp hx with rfl | hx
          · exact le_refl _
          · exact (List.sorted_cons.mp hsort).1 x hx
        have hsub : unionIcc (first :: rest) ∩ Set.Iic first.minFill ⊆ {first.minFill} := by
          rintro x ⟨hxU, hxle⟩
          obtain ⟨r, hr, hrx, -⟩ := mem_unionIcc.mp hxU
          have := le_trans (hmin r hr) hrx
          exact Set.mem_singleton_iff.mpr (le_antisymm hxle this)
        have hsplit : unionIcc (first :: rest) =
            (unionIcc (first :: rest) ∩ Set.Ioi first.minFill) ∪
              (unionIcc (first :: rest) ∩ Set.Iic first.minFill) := by
          rw [← Set.inter_union_distrib_left, Set.union_comm, Set.Iic_union_Ioi,
            Set.inter_univ]
        have hvol : volume (unionIcc (first :: rest) ∩ Set.Ioi first.minFill) =
            volume (unionIcc (first :: rest)) := by
          conv_rhs => rw [hsplit]
          rw [volume_union_null_right _ _
            (measure_mono_null hsub Real.volume_singleton)]
        have hUeq : unionIcc (first :: rest) =
            ⋃ r ∈ ranges, Set.Icc r.minFill r.maxFill := by
          rw [unionIcc_eq_biUnion]
          ext x
          simp only [Set.mem_iUnion, exists_prop]
          exact ⟨fun ⟨r, hr, hx⟩ => ⟨r, hperm.subset hr, hx⟩,
            fun ⟨r, hr, hx⟩ => ⟨r, hperm.symm.subset hr, hx⟩⟩
        rw [hvol, hUeq]
    rw [← key, ENNReal.toReal_ofReal (getTotalCoverage_nonneg ranges)]
  · norm_num [getTotalCoverage, sortByMinFill, List.insertionSort, List.orderedInsert,
      fillLE, coverageSweep]

/-- Witness for C3: applying the union-length theorem to the ranges
`[2,9]` and `[4,11]` (each well-formed). -/
theorem claimC3_total_coverage_is_union_length_witness :
    (∀ r ∈ [(⟨"w1", 0, 2, 0, 9, 0, 0, 0⟩ : FillRange ℝ), ⟨"w2", 0, 4, 0, 11, 0, 0, 0⟩],
      r.minFill ≤ r.maxFill) ∧
    getTotalCoverage [(⟨"w1", 0, 2, 0, 9, 0, 0, 0⟩ : FillRange ℝ), ⟨"w2", 0, 4, 0, 11, 0, 0, 0⟩] =
      (volume (⋃ r ∈ [(⟨"w1", 0, 2, 0, 9, 0, 0, 0⟩ : FillRange ℝ),
        ⟨"w2", 0, 4, 0, 11, 0, 0, 0⟩], Set.Icc r.minFill r.maxFill)).toReal := by
  have hwf : ∀ r ∈ [(⟨"w1", 0, 2, 0, 9, 0, 0, 0⟩ : FillRange ℝ), ⟨"w2", 0, 4, 0, 11, 0, 0, 0⟩],
      r.minFill ≤ r.maxFill := by
    intro r hr
    rcases List.mem_cons.mp hr with rfl | hr
    · norm_num
    · rcases List.mem_cons.mp hr with rfl | hr
      · norm_num
      · simp at hr
  exact ⟨hwf, claimC3_total_coverage_is_union_length.1 _ hwf⟩

/-! ### Helper lemmas about list minima and maxima -/

theorem foldl_min_le_init : ∀ (xs : List α) (x : α), xs.foldl min x ≤ x
  | [], x => le_refl x
  | a :: as, x => le_trans (foldl_min_le_init as (min x a)) (min_le_left x a)

theorem foldl_min_le_mem : ∀ (xs : List α) (x y : α), y ∈ xs → xs.foldl min x ≤ y
  | [], _, y, hy => absurd hy (List.not_mem_nil y)
  | a :: as, x, y, hy => by
    rw [List.foldl_cons]
    rcases List.mem_cons.mp hy with rfl | hy'
    · exact le_trans (foldl_min_le_init as (min x y)) (min_le_right x y)
    · exact foldl_min_le_mem as (min x a) y hy'

theorem foldl_min_mem : ∀ (xs : List α) (x : α), xs.foldl min x ∈ x :: xs
  | [], x => List.mem_cons_self x []
  | a :: as, x => by
    rw [List.foldl_cons]
    rcases List.mem_cons.mp (foldl_min_mem as (min x a)) with he | hm
    · rw [he]
      rcases min_choice x a with hc | hc <;> rw [hc]
      · exact List.mem_cons_self _ _
      · exact List.mem_cons_of_mem _ (List.mem_cons_self _ _)
    · exact List.mem_cons_of_mem _ (List.mem_cons_of_mem _ hm)

theorem listMin_mem : ∀ (l : List α), l ≠ [] → listMin l ∈ l
  | [], h => absurd rfl h
  | x :: xs, _ => foldl_min_mem xs x

theorem listMin_le : ∀ (l : List α) (y : α), y ∈ l → listMin l ≤ y
  | [], y, hy => absurd hy (List.not_mem_nil y)
  | x :: xs, y, hy => by
    rcases List.mem_cons.mp hy with rfl | hy'
    · exact foldl_min_le_init xs y
    · exact foldl_min_le_mem xs x y hy'

theorem listMin_perm : ∀ (l₁ l₂ : List α), List.Perm l₁ l₂ → listMin l₁ = listMin l₂ :=
  fun l₁ l₂ hp => by
    rcases eq_or_ne l₁ [] with rfl | h₁
    · rw [hp.symm.eq_nil]
    · have h₂ : l₂ ≠ [] := fun h => h₁ (by rw [h] at hp; exact hp.eq_nil)
      exact le_antisymm (listMin_le l₁ _ (hp.symm.subset (listMin_mem l₂ h₂)))
        (listMin_le l₂ _ (hp.subset (listMin_mem l₁ h₁)))

theorem foldl_max_init_le : ∀ (xs : List α) (x : α), x ≤ xs.foldl max x
  | [], x => le_refl x
  | a :: as, x => le_trans (le_max_left x a) (foldl_max_init_le as (max x a))

theorem foldl_max_mem_le : ∀ (xs : List α) (x y : α), y ∈ xs → y ≤ xs.foldl max x
  | [], _, y, hy => absurd hy (List.not_mem_nil y)
  | a :: as, x, y, hy => by
    rw [List.foldl_cons]
    rcases List.mem_cons.mp hy with rfl | hy'
    · exact le_trans (le_max_right x y) (foldl_max_init_le as (max x y))
    · exact foldl_max_mem_le as (max x a) y hy'

theorem foldl_max_mem : ∀ (xs : List α) (x : α), xs.foldl max x ∈ x :: xs
  | [], x => List.mem_cons_self x []
  | a :: as, x => by
    rw [List.foldl_cons]
    rcases List.mem_cons.mp (foldl_max_mem as (max x a)) with he | hm
    · rw [he]
      rcases max_choice x a with hc | hc <;> rw [hc]
      · exact List.mem_cons_self _ _
      · exact List.mem_cons_of_mem _ (List.mem_cons_self _ _)
    · exact List.mem_cons_of_mem _ (List.mem_cons_of_mem _ hm)

theorem listMax_mem : ∀ (l : List α), l ≠ [] → listMax l ∈ l
  | [], h => absurd rfl h
  | x :: xs, _ => foldl_max_mem xs x

theorem le_listMax : ∀ (l : List α) (y : α), y ∈ l → y ≤ listMax l
  | [], y, hy => absurd hy (List.not_mem_nil y)
  | x :: xs, y, hy => by
    rcases List.mem_cons.mp hy with rfl | hy'
    · exact foldl_max_init_le xs y
    · exact foldl_max_mem_le xs x y hy'

theorem listMax_perm : ∀ (l₁ l₂ : List α), List.Perm l₁ l₂ → listMax l₁ = listMax l₂ :=
  fun l₁ l₂ hp => by
    rcases eq_or_ne l₁ [] with rfl | h₁
    · rw [hp.symm.eq_nil]
    · have h₂ : l₂ ≠ [] := fun h => h₁ (by rw [h] at hp; exact hp.eq_nil)
      exact le_antisymm (le_listMax l₂ _ (hp.subset (listMax_mem l₁ h₁)))
        (le_listMax l₁ _ (hp.symm.subset (listMax_mem l₂ h₂)))

/-! ### Symmetry of the gap sweep -/

/-- Moving an element of the leading tie block (an element whose `minFill`
is minimal) to the front of a sorted list of well-formed ranges does not
change the gaps produced by the sweep. -/
theorem gapSweep_cons_erase :
    ∀ (l : List (FillRange α)) (a : FillRange α) (m : α),
      List.Sorted (@fillLE α _) l → (∀ r ∈ l, r.minFill ≤ r.maxFill) →
      a ∈ l → (∀ r ∈ l, a.minFill ≤ r.minFill) →
      gapSweep m l = gapSweep m (a :: l.erase a)
  | [], a, _, _, _, ha, _ => absurd ha (List.not_mem_nil a)
  | h :: t, a, m, hs, hwf, ha, hmin => by
    rcases eq_or_ne a h with rfl | hne
    · rw [List.erase_cons_head]
    · have hat : a ∈ t := (List.mem_cons.mp ha).resolve_left hne
      obtain ⟨hhd, hst⟩ := List.sorted_cons.mp hs
      have hμ : h.minFill = a.minFill :=
        le_antisymm (hhd a hat) (hmin h (List.mem_cons_self h t))
      have hwa : a.minFill ≤ a.maxFill := hwf a ha
      have hwh : h.minFill ≤ h.maxFill := hwf h (List.mem_cons_self h t)
      have herase : (h :: t).erase a = h :: t.erase a := by
        simp [List.erase_cons, Ne.symm hne]
      have IH := gapSweep_cons_erase t a (max m h.maxFill) hst
        (fun r hr => hwf r (List.mem_cons_of_mem _ hr)) hat
        (fun r hr => hmin r (List.mem_cons_of_mem _ hr))
      have hc1 : ¬ (max m h.maxFill < a.minFill) := by
        push_neg
        refine le_trans ?_ (le_max_right m h.maxFill)
        rw [← hμ]
        exact hwh
      have hc2 : ¬ (max m a.maxFill < h.minFill) := by
        push_neg
        refine le_trans ?_ (le_max_right m a.maxFill)
        rw [hμ]
        exact hwa
      rw [herase]
      simp only [gapSweep]
      rw [IH]
      simp only [gapSweep]
      rw [if_neg hc1, if_neg hc2, hμ,
        show m ⊔ h.maxFill ⊔ a.maxFill = m ⊔ a.maxFill ⊔ h.maxFill from by
          rw [max_assoc, max_assoc, max_comm h.maxFill]]

/-- The gap sweep computes the same gap list on any two sorted
permutations of a list of well-formed ranges. -/
theorem gapSweep_perm :
    ∀ (l₁ l₂ : List (FillRange α)) (m : α), List.Perm l₁ l₂ →
      List.Sorted (@fillLE α _) l₁ → List.Sorted (@fillLE α _) l₂ →
      (∀ r ∈ l₁, r.minFill ≤ r.maxFill) →
      gapSweep m l₁ = gapSweep m l₂
  | [], l₂, m, hp, _, _, _ => by rw [hp.symm.eq_nil]
  | a :: t₁, l₂, m, hp, hs₁, hs₂, hwf => by
    obtain ⟨ha₂, hpt⟩ := List.cons_perm_iff_perm_erase.mp hp
    have hs₂' : List.Sorted (@fillLE α _) (l₂.erase a) :=
      List.Pairwise.sublist (List.erase_sublist a l₂) hs₂
    have hmin₂ : ∀ r ∈ l₂, a.minFill ≤ r.minFill := by
      intro r hr
      rcases List.mem_cons.mp (hp.symm.subset hr) with rfl | hr₁
      · exact le_refl _
      · exact (List.sorted_cons.mp hs₁).1 r hr₁
    have hwf₂ : ∀ r ∈ l₂, r.minFill ≤ r.maxFill := fun r hr => hwf r (hp.symm.subset hr)
    rw [gapSweep_cons_erase l₂ a m hs₂ hwf₂ ha₂ hmin₂]
    simp only [gapSweep]
    rw [gapSweep_perm t₁ (l₂.erase a) (max m a.maxFill) hpt (List.sorted_cons.mp hs₁).2 hs₂'
      (fun r hr => hwf r (List.mem_cons_of_mem _ hr))]

/-- Starting the sweep at the head's `minFill` over the whole sorted list
is the same as starting it at the head's `maxFill` over the tail (the head
never triggers a gap against its own `minFill`). -/
theorem gapSweep_head_absorb (f : FillRange α) (t : List (FillRange α))
    (hwf : f.minFill ≤ f.maxFill) :
    gapSweep f.minFill (f :: t) = gapSweep f.maxFill t := by
  simp only [gapSweep]
  rw [if_neg (lt_irrefl _), max_eq_right hwf]

/-- `findGaps` is symmetric in its two range lists provided every pooled
range is well-formed (`minFill ≤ maxFill`). -/
theorem findGaps_symm (ranges1 ranges2 : List (FillRange α))
    (hwf : ∀ r ∈ ranges1 ++ ranges2, r.minFill ≤ r.maxFill) :
    findGaps ranges1 ranges2 = findGaps ranges2 ranges1 := by
  have hp : List.Perm (sortByMinFill (ranges1 ++ ranges2))
      (sortByMinFill (ranges2 ++ ranges1)) :=
    (List.perm_insertionSort _ _).trans
      (List.perm_append_comm.trans (List.perm_insertionSort _ _).symm)
  unfold findGaps
  rcases h₁ : sortByMinFill (ranges1 ++ ranges2) with _ | ⟨f₁, t₁⟩ <;>
    rcases h₂ : sortByMinFill (ranges2 ++ ranges1) with _ | ⟨f₂, t₂⟩
  · rfl
  · rw [h₁, h₂] at hp
    exact absurd hp.symm.eq_nil (by simp)
  · rw [h₁, h₂] at hp
    exact absurd hp.eq_nil (by simp)
  · rw [h₁, h₂] at hp
    have hs₁ : List.Sorted (@fillLE α _) (f₁ :: t₁) := by
      rw [← h₁]
      exact List.sorted_insertionSort _ _
    have hs₂ : List.Sorted (@fillLE α _) (f₂ :: t₂) := by
      rw [← h₂]
      exact List.sorted_insertionSort _ _
    have hwf₁ : ∀ r ∈ f₁ :: t₁, r.minFill ≤ r.maxFill := by
      intro r hr
      refine hwf r ?_
      have := List.perm_insertionSort (@fillLE α _) (ranges1 ++ ranges2)
      rw [show List.insertionSort (@fillLE α _) (ranges1 ++ ranges2) =
        sortByMinFill (ranges1 ++ ranges2) from rfl, h₁] at this
      exact this.subset hr
    have hwf₂ : ∀ r ∈ f₂ :: t₂, r.minFill ≤ r.maxFill :=
      fun r hr => hwf₁ r (hp.symm.subset hr)
    have hμ : f₁.minFill = f₂.minFill := by
      have h12 : f₁.minFill ≤ f₂.minFill := by
        rcases List.mem_cons.mp (hp.symm.subset (List.mem_cons_self f₂ t₂)) with he | hm
        · rw [he]
        · exact (List.sorted_cons.mp hs₁).1 f₂ hm
      have h21 : f₂.minFill ≤ f₁.minFill := by
        rcases List.mem_cons.mp (hp.subset (List.mem_cons_self f₁ t₁)) with he | hm
        · rw [he]
        · exact (List.sorted_cons.mp hs₂).1 f₁ hm
      exact le_antisymm h12 h21
    calc gapSweep f₁.maxFill t₁
        = gapSweep f₁.minFill (f₁ :: t₁) :=
          (gapSweep_head_absorb f₁ t₁ (hwf₁ f₁ (List.mem_cons_self f₁ t₁))).symm
      _ = gapSweep f₁.minFill (f₂ :: t₂) := gapSweep_perm _ _ _ hp hs₁ hs₂ hwf₁
      _ = gapSweep f₂.minFill (f₂ :: t₂) := by rw [hμ]
      _ = gapSweep f₂.maxFill t₂ :=
          gapSweep_head_absorb f₂ t₂ (hwf₂ f₂ (List.mem_cons_self f₂ t₂))

/-! ### Symmetry of the coverage percentages -/

theorem calculateCoverage_swap (ranges1 ranges2 : List (FillRange α))
    (gaps gaps' : List (CoverageGap α)) :
    ((calculateCoverage ranges1 ranges2 gaps).series1 =
        (calculateCoverage ranges2 ranges1 gaps').series2 ∧
     (calculateCoverage ranges1 ranges2 gaps).series2 =
        (calculateCoverage ranges2 ranges1 gaps').series1) ∧
    (gaps = gaps' →
      (calculateCoverage ranges1 ranges2 gaps).combined =
        (calculateCoverage ranges2 ranges1 gaps').combined) := by
  have hperm : List.Perm (ranges1 ++ ranges2) (ranges2 ++ ranges1) := List.perm_append_comm
  have hmin : listMin ((ranges1 ++ ranges2).map FillRange.minFill) =
      listMin ((ranges2 ++ ranges1).map FillRange.minFill) :=
    listMin_perm _ _ (hperm.map _)
  have hmax : listMax ((ranges1 ++ ranges2).map FillRange.maxFill) =
      listMax ((ranges2 ++ ranges1).map FillRange.maxFill) :=
    listMax_perm _ _ (hperm.map _)
  have hemp : (ranges1 ++ ranges2).isEmpty = (ranges2 ++ ranges1).isEmpty := by
    rcases ranges1 with _ | ⟨x, t⟩ <;> rcases ranges2 with _ | ⟨y, s⟩ <;> simp
  simp only [calculateCoverage, hemp, hmin, hmax]
  split_ifs with h1 h2
  · exact ⟨⟨rfl, rfl⟩, fun _ => rfl⟩
  · exact ⟨⟨rfl, rfl⟩, fun _ => rfl⟩
  · exact ⟨⟨rfl, rfl⟩, fun h => by rw [h]⟩

theorem calculateSeriesFillRanges_wf (S : BottleSeries α)
    (hvol : ∀ b ∈ S.bottles, 0 ≤ b.volume)
    (hcfg : S.config.fillRangeMin ≤ S.config.fillRangeMax) :
    ∀ r ∈ calculateSeriesFillRanges S, r.minFill ≤ r.maxFill := by
  intro r hr
  obtain ⟨b, hb, rfl⟩ := List.mem_map.mp hr
  show b.volume * S.config.fillRangeMin / 100 ≤ b.volume * S.config.fillRangeMax / 100
  have h := mul_le_mul_of_nonneg_left hcfg (hvol b hb)
  linarith

/-! ### Claim C6 -/

/-- C6 (counterexample): with series A holding one bottle of volume 5 under
fill percentages (100, 96) — allowed by the types, `minPercent >
maxPercent` — and series B holding bottles of volumes 8 and 10 under
percentages (50, 57.5), the gap `[4.8, 5)` belongs to
`compareSeries(A,B).gaps` but not to `compareSeries(B,A).gaps`: the gap
lists of the two call orders differ even as sets, so `compareSeries` is
not symmetric as claimed for all inputs. -/
theorem claimC6_counterexample :
    (⟨4.8, 5, 0.2, .minor⟩ : CoverageGap ℝ) ∈
      (compareSeries
        (⟨"A", "A", ⟨.linear, 0, 0, 1, "t", 100, 96⟩, [⟨"a1", 5⟩]⟩ : BottleSeries ℝ)
        ⟨"B", "B", ⟨.linear, 0, 0, 2, "t", 50, 57.5⟩, [⟨"b1", 8⟩, ⟨"b2", 10⟩]⟩).gaps ∧
    (⟨4.8, 5, 0.2, .minor⟩ : CoverageGap ℝ) ∉
      (compareSeries
        (⟨"B", "B", ⟨.linear, 0, 0, 2, "t", 50, 57.5⟩, [⟨"b1", 8⟩, ⟨"b2", 10⟩]⟩ : BottleSeries ℝ)
        ⟨"A", "A", ⟨.linear, 0, 0, 1, "t", 100, 96⟩, [⟨"a1", 5⟩]⟩).gaps := by
  have h1 : (compareSeries
      (⟨"A", "A", ⟨.linear, 0, 0, 1, "t", 100, 96⟩, [⟨"a1", 5⟩]⟩ : BottleSeries ℝ)
      ⟨"B", "B", ⟨.linear, 0, 0, 2, "t", 50, 57.5⟩, [⟨"b1", 8⟩, ⟨"b2", 10⟩]⟩).gaps =
      [⟨4.6, 5, 0.4, .minor⟩, ⟨4.8, 5, 0.2, .minor⟩] := by
    norm_num [compareSeries, calculateSeriesFillRanges, calculateFillRange, findGaps,
      sortByMinFill, List.insertionSort, List.orderedInsert, fillLE, gapSweep,
      assessGapSeverity, GAP_SEVERITY_THRESHOLDS]
  have h2 : (compareSeries
      (⟨"B", "B", ⟨.linear, 0, 0, 2, "t", 50, 57.5⟩, [⟨"b1", 8⟩, ⟨"b2", 10⟩]⟩ : BottleSeries ℝ)
      ⟨"A", "A", ⟨.linear, 0, 0, 1, "t", 100, 96⟩, [⟨"a1", 5⟩]⟩).gaps =
      [⟨4.6, 5, 0.4, .minor⟩] := by
    norm_num [compareSeries, calculateSeriesFillRanges, calculateFillRange, findGaps,
      sortByMinFill, List.insertionSort, List.orderedInsert, fillLE, gapSweep,
      assessGapSeverity, GAP_SEVERITY_THRESHOLDS]
  rw [h1, h2]
  constructor
  · exact List.mem_cons_of_mem _ (List.mem_cons_self _ _)
  · intro hmem
    rw [List.mem_singleton, CoverageGap.mk.injEq] at hmem
    norm_num at hmem

/-- C6 (amended): the coverage percentages of `compareSeries` swap
symmetrically for all inputs (`series1Coverage` of one call order equals
`series2Coverage` of the other and vice versa); and provided every bottle
volume is nonnegative and both series' configs have
`fillRangeMin ≤ fillRangeMax` (so every fill range is well formed), the
gap lists of the two call orders are identical (even as lists, hence as
sets of intervals with severities) and the combined coverage agrees. -/
theorem claimC6_compareSeries_symmetric (A B : BottleSeries ℝ) :
    ((compareSeries A B).series1Coverage = (compareSeries B A).series2Coverage ∧
     (compareSeries A B).series2Coverage = (compareSeries B A).series1Coverage) ∧
    ((∀ b ∈ A.bottles, 0 ≤ b.volume) → (∀ b ∈ B.bottles, 0 ≤ b.volume) →
      A.config.fillRangeMin ≤ A.config.fillRangeMax →
      B.config.fillRangeMin ≤ B.config.fillRangeMax →
      (compareSeries A B).gaps = (compareSeries B A).gaps ∧
      (compareSeries A B).combinedCoverage = (compareSeries B A).combinedCoverage) := by
  constructor
  · exact ⟨(calculateCoverage_swap (calculateSeriesFillRanges A) (calculateSeriesFillRanges B)
        _ _).1.1,
      (calculateCoverage_swap (calculateSeriesFillRanges A) (calculateSeriesFillRanges B)
        _ _).1.2⟩
  · intro hA hB hcA hcB
    have hwfA := calculateSeriesFillRanges_wf A hA hcA
    have hwfB := calculateSeriesFillRanges_wf B hB hcB
    have hwfAB : ∀ r ∈ calculateSeriesFillRanges A ++ calculateSeriesFillRanges B,
        r.minFill ≤ r.maxFill := by
      intro r hr
      rcases List.mem_append.mp hr with h | h
      exacts [hwfA r h, hwfB r h]
    have hgaps : findGaps (calculateSeriesFillRanges A) (calculateSeriesFillRanges B) =
        findGaps (calculateSeriesFillRanges B) (calculateSeriesFillRanges A) :=
      findGaps_symm _ _ hwfAB
    exact ⟨hgaps, (calculateCoverage_swap (calculateSeriesFillRanges A)
      (calculateSeriesFillRanges B) _ _).2 hgaps⟩

/-- Witness for C6 (amended): two single-bottle series with well-formed
configurations. -/
theorem claimC6_compareSeries_symmetric_witness :
    (∀ b ∈ (⟨"A", "A", ⟨.linear, 0, 0, 1, "t", 65, 85⟩, [⟨"a1", 100⟩]⟩ :
        BottleSeries ℝ).bottles, 0 ≤ b.volume) ∧
    (∀ b ∈ (⟨"B", "B", ⟨.linear, 0, 0, 1, "t", 60, 90⟩, [⟨"b1", 200⟩]⟩ :
        BottleSeries ℝ).bottles, 0 ≤ b.volume) ∧
    ((⟨"A", "A", ⟨.linear, 0, 0, 1, "t", 65, 85⟩, [⟨"a1", 100⟩]⟩ :
        BottleSeries ℝ).config.fillRangeMin ≤
      (⟨"A", "A", ⟨.linear, 0, 0, 1, "t", 65, 85⟩, [⟨"a1", 100⟩]⟩ :
        BottleSeries ℝ).config.fillRangeMax) ∧
    ((⟨"B", "B", ⟨.linear, 0, 0, 1, "t", 60, 90⟩, [⟨"b1", 200⟩]⟩ :
        BottleSeries ℝ).config.fillRangeMin ≤
      (⟨"B", "B", ⟨.linear, 0, 0, 1, "t", 60, 90⟩, [⟨"b1", 200⟩]⟩ :
        BottleSeries ℝ).config.fillRangeMax) ∧
    ((compareSeries (⟨"A", "A", ⟨.linear, 0, 0, 1, "t", 65, 85⟩, [⟨"a1", 100⟩]⟩ :
          BottleSeries ℝ)
        ⟨"B", "B", ⟨.linear, 0, 0, 1, "t", 60, 90⟩, [⟨"b1", 200⟩]⟩).gaps =
      (compareSeries (⟨"B", "B", ⟨.linear, 0, 0, 1, "t", 60, 90⟩, [⟨"b1", 200⟩]⟩ :
          BottleSeries ℝ)
        ⟨"A", "A", ⟨.linear, 0, 0, 1, "t", 65, 85⟩, [⟨"a1", 100⟩]⟩).gaps ∧
     (compareSeries (⟨"A", "A", ⟨.linear, 0, 0, 1, "t", 65, 85⟩, [⟨"a1", 100⟩]⟩ :
          BottleSeries ℝ)
        ⟨"B", "B", ⟨.linear, 0, 0, 1, "t", 60, 90⟩, [⟨"b1", 200⟩]⟩).combinedCoverage =
      (compareSeries (⟨"B", "B", ⟨.linear, 0, 0, 1, "t", 60, 90⟩, [⟨"b1", 200⟩]⟩ :
          BottleSeries ℝ)
        ⟨"A", "A", ⟨.linear, 0, 0, 1, "t", 65, 85⟩, [⟨"a1", 100⟩]⟩).combinedCoverage) := by
  have hA : ∀ b ∈ (⟨"A", "A", ⟨.linear, 0, 0, 1, "t", 65, 85⟩, [⟨"a1", 100⟩]⟩ :
      BottleSeries ℝ).bottles, 0 ≤ b.volume := by
    intro b hb
    rw [List.mem_singleton] at hb
    rw [hb]
    norm_num
  have hB : ∀ b ∈ (⟨"B", "B", ⟨.linear, 0, 0, 1, "t", 60, 90⟩, [⟨"b1", 200⟩]⟩ :
      BottleSeries ℝ).bottles, 0 ≤ b.volume := by
    intro b hb
    rw [List.mem_singleton] at hb
    rw [hb]
    norm_num
  exact ⟨hA, hB, by norm_num, by norm_num,
    (claimC6_compareSeries_symmetric _ _).2 hA hB (by norm_num) (by norm_num)⟩

end Pack2
